import Mathlib

/-!
Verification of the module-discovery core of `snapshot/fuchsia/process_reader.cc`
(Crashpad, Fuchsia port).

The C++ code is embedded shallowly:

* `Target` packages everything the code observes about the target process:
  the `ZX_PROP_NAME` property query, the `ZX_PROP_PROCESS_DEBUG_ADDR`
  property query, the pointer-sized `ProcessMemoryFuchsia::Read` at an
  address, and `ProcessMemoryFuchsia::ReadCString`.  Every one of these is a
  fallible call, modelled as an `Option` result.
* `Module` is `ProcessReader::Module`; the `ElfImageReader*` it carries is
  represented by the base address the reader is initialized with.
* `walk` is the `while (map != 0)` loop of `ProcessReader::InitializeModules`.
  The loop counter `i` (starting at 0, guard `++i >= kMaxDso`) is represented
  by the structurally decreasing `fuel = kMaxDso - 1 - i`, so `fuel = 0`
  exactly when `i + 1 >= kMaxDso`; `walkI` below is the literal counter
  version and `walkI_eq_walk` proves the two agree.
* `initializeModules` is the straight-line part of
  `ProcessReader::InitializeModules`; `ProcessReader.Modules`,
  `ProcessReader.Initialize` and the `InitState` machine model the caching
  wrapper and the `INITIALIZATION_STATE_*` macros, with `none` standing for a
  tripped `DCHECK`.
-/

namespace Crashpad

/-- Embeds `ProcessReader::Module`: a display name plus the `ElfImageReader`,
represented here by the base load address the reader was initialized with. -/
structure Module where
  name : String
  base : Nat
deriving DecidableEq, Repr

/-- The target process as observed by the code: the two `zx_object_get_property`
queries and the two memory-read primitives, each fallible. -/
structure Target where
  name : Option String
  debug_addr : Option Nat
  read : Nat → Option Nat
  readCString : Nat → Option String

/-- Value of `offsetof(r_debug, r_map)` on LP64. -/
def k_r_debug_map_offset : Nat := 8

/-- Value of `offsetof(link_map, l_addr)` on LP64. -/
def k_link_map_addr_offset : Nat := 0

/-- Value of `offsetof(link_map, l_name)` on LP64. -/
def k_link_map_name_offset : Nat := 8

/-- Value of `offsetof(link_map, l_next)` on LP64. -/
def k_link_map_next_offset : Nat := 24

/-- Source constant `constexpr int kMaxDso = 1000;`. -/
def kMaxDso : Nat := 1000

/-- The display-name computation of one loop iteration:
`ReadCString` failure leaves `dsoname` empty, then
`module.name = dsoname.empty() ? app_name : dsoname;`. -/
def resolveName (t : Target) (appName : String) (nameAddress : Nat) : String :=
  let dsoname := (t.readCString nameAddress).getD ""
  if dsoname.isEmpty then appName else dsoname

/-- The `while (map != 0)` loop of `ProcessReader::InitializeModules`, with the
counter `i` replaced by `fuel = kMaxDso - 1 - i` (see `walkI_eq_walk`).  Read
order (base, next, name address, name string) and the effect of each failure
(`break` keeps what was collected; `ReadCString` failure is non-fatal) follow
the source. -/
def walk (t : Target) (appName : String) : Nat → Nat → List Module
  | fuel, map =>
    if map = 0 then []
    else
      match fuel with
      | 0 => []
      | fuel' + 1 =>
        match t.read (map + k_link_map_addr_offset) with
        | none => []
        | some base =>
          match t.read (map + k_link_map_next_offset) with
          | none => []
          | some next =>
            match t.read (map + k_link_map_name_offset) with
            | none => []
            | some nameAddress =>
              { name := resolveName t appName nameAddress, base := base } ::
                walk t appName fuel' next

/-- One-step unfolding of `walk`. -/
theorem walk_eq (t : Target) (appName : String) (fuel map : Nat) :
    walk t appName fuel map =
      if map = 0 then []
      else
        match fuel with
        | 0 => []
        | fuel' + 1 =>
          match t.read (map + k_link_map_addr_offset) with
          | none => []
          | some base =>
            match t.read (map + k_link_map_next_offset) with
            | none => []
            | some next =>
              match t.read (map + k_link_map_name_offset) with
              | none => []
              | some nameAddress =>
                { name := resolveName t appName nameAddress, base := base } ::
                  walk t appName fuel' next := by
  cases fuel <;> rfl

/-- The literal form of the loop, with the counter `i` and the pre-increment
guard `if (++i >= kMaxDso) return;` exactly as in the source. -/
def walkI (t : Target) (appName : String) (map i : Nat) : List Module :=
  if map = 0 then []
  else if _hg : kMaxDso ≤ i + 1 then []
  else
    match t.read (map + k_link_map_addr_offset) with
    | none => []
    | some base =>
      match t.read (map + k_link_map_next_offset) with
      | none => []
      | some next =>
        match t.read (map + k_link_map_name_offset) with
        | none => []
        | some nameAddress =>
          { name := resolveName t appName nameAddress, base := base } ::
            walkI t appName next (i + 1)
termination_by kMaxDso - i
decreasing_by simp only [kMaxDso] at *; omega

/-- The counter form and the fuel form of the loop agree:
`walkI map i = walk (kMaxDso - 1 - i) map`. -/
theorem walkI_eq_walk (t : Target) (appName : String) :
    ∀ (fuel map i : Nat), kMaxDso - 1 - i = fuel →
      walkI t appName map i = walk t appName fuel map := by
  intro fuel
  induction fuel with
  | zero =>
    intro map i hi
    rw [walkI, walk_eq]
    by_cases hm : map = 0
    · simp [hm]
    · have hg : kMaxDso ≤ i + 1 := by
        simp only [kMaxDso] at *; omega
      simp [hm, hg]
  | succ fuel ih =>
    intro map i hi
    rw [walkI, walk_eq]
    by_cases hm : map = 0
    · simp [hm]
    · have hg : ¬ kMaxDso ≤ i + 1 := by
        simp only [kMaxDso] at *; omega
      simp only [hm, if_false, hg, dif_neg, not_false_iff]
      cases t.read (map + k_link_map_addr_offset) with
      | none => rfl
      | some base =>
        cases t.read (map + k_link_map_next_offset) with
        | none => rfl
        | some next =>
          cases t.read (map + k_link_map_name_offset) with
          | none => rfl
          | some nameAddress =>
            simp only [List.cons.injEq, true_and]
            exact ih next (i + 1) (by simp only [kMaxDso] at *; omega)

/-- Embeds `ProcessReader::InitializeModules`: the `ZX_PROP_NAME` query (building
`app_name`), the `ZX_PROP_PROCESS_DEBUG_ADDR` query with its
`status != ZX_OK || debug_address == 0` abort, the head-pointer read at
`debug_address + offsetof(r_debug, r_map)`, then the loop with `i = 0`
(fuel `kMaxDso - 1`). -/
def initializeModules (t : Target) : List Module :=
  match t.name with
  | none => []
  | some procName =>
    let app_name := "app:" ++ procName
    match t.debug_addr with
    | none => []
    | some debug_address =>
      if debug_address = 0 then []
      else
        match t.read (debug_address + k_r_debug_map_offset) with
        | none => []
        | some map => walk t app_name (kMaxDso - 1) map

/-- Modelled from the spec: the `INITIALIZATION_STATE_*` macros (defined in
util/misc/initialization_state_dcheck.h, outside this translation unit)
maintain a linear state machine uninitialized → initializing → valid. -/
inductive InitState where
  | uninitialized
  | initializing
  | valid
deriving DecidableEq, Repr

/-- Embeds `ProcessReader`: initialization state, the bound target (process handle
plus its `ProcessMemoryFuchsia` accessor), the one-shot cache flag
`initialized_modules_` and the cached `modules_`. -/
structure ProcessReader where
  initialized : InitState
  target : Target
  initialized_modules : Bool
  modules : List Module

/-- Embeds `ProcessReader::Initialize`: set `initialized_` to initializing, bind
the handle and construct the accessor, set `initialized_` to valid, return
true.  The two state-setting macros are modelled from the spec (their
definition is outside this translation unit). -/
def ProcessReader.Initialize (r : ProcessReader) (t : Target) :
    ProcessReader × Bool :=
  let r1 : ProcessReader := { r with initialized := InitState.initializing }
  let r2 : ProcessReader := { r1 with target := t }
  let r3 : ProcessReader := { r2 with initialized := InitState.valid }
  (r3, true)

/-- The state effect of `ProcessReader::InitializeModules`: it sets
`initialized_modules_ = true` first, before any fallible step, then fills
`modules_` with whatever discovery produces. -/
def ProcessReader.InitializeModules (r : ProcessReader) : ProcessReader :=
  let r1 : ProcessReader := { r with initialized_modules := true }
  { r1 with modules := initializeModules r1.target }

/-- Embeds `ProcessReader::Modules`: first `INITIALIZATION_STATE_DCHECK_VALID`
(the macro is modelled from the spec as a fatal assertion, a tripped DCHECK
being `none`), then the one-shot cache: run `InitializeModules` only when
`initialized_modules_` is still false, and return `modules_`. -/
def ProcessReader.Modules (r : ProcessReader) :
    Option (List Module × ProcessReader) :=
  if r.initialized = InitState.valid then
    if r.initialized_modules then some (r.modules, r)
    else
      let r' := r.InitializeModules
      some (r'.modules, r')
  else none

/-! Link-record chains

A `LinkNode` records the data one `link_map` node exposes through the three
pointer-sized reads the loop performs; `chainSeg t head nodes tail` says that
starting from address `head` the target memory presents exactly the nodes of
`nodes`, linked in order, with the last next pointer equal to `tail`. -/

/-- One `link_map` node as the loop reads it: its own address, `l_addr`,
`l_next` and `l_name`. -/
structure LinkNode where
  addr : Nat
  base : Nat
  next : Nat
  nameAddr : Nat
deriving DecidableEq, Repr

/-- Predicate `chainSeg t head nodes tail`: the three pointer-sized reads succeed with
the recorded values at every node of `nodes`, consecutive nodes are linked by
the next pointers, the segment starts at `head`, ends at `tail`, and every
node address is nonzero. -/
def chainSeg (t : Target) : Nat → List LinkNode → Nat → Bool
  | head, [], tail => head == tail
  | head, n :: rest, tail =>
    (head == n.addr) && (n.addr != 0) &&
    (t.read (n.addr + k_link_map_addr_offset) == some n.base) &&
    (t.read (n.addr + k_link_map_next_offset) == some n.next) &&
    (t.read (n.addr + k_link_map_name_offset) == some n.nameAddr) &&
    chainSeg t n.next rest tail

/-- The module descriptor the loop builds for one fully read node. -/
def expectedModule (t : Target) (appName : String) (n : LinkNode) : Module :=
  { name := resolveName t appName n.nameAddr, base := n.base }

theorem walk_map_zero (t : Target) (appName : String) (fuel : Nat) :
    walk t appName fuel 0 = [] := by
  rw [walk_eq]; simp

/-- Along a fully readable segment the loop emits exactly the expected
descriptor of each node, consumes one unit of fuel per node, and continues
from the tail of the segment. -/
theorem chainSeg_walk (t : Target) (appName : String) :
    ∀ (nodes : List LinkNode) (head tail fuel : Nat),
      chainSeg t head nodes tail = true →
      nodes.length ≤ fuel →
      walk t appName fuel head =
        nodes.map (expectedModule t appName) ++
          walk t appName (fuel - nodes.length) tail := by
  intro nodes
  induction nodes with
  | nil =>
    intro head tail fuel hchain _
    simp only [chainSeg, beq_iff_eq] at hchain
    simp [hchain]
  | cons n rest ih =>
    intro head tail fuel hchain hlen
    simp only [chainSeg, Bool.and_eq_true, beq_iff_eq, bne_iff_ne, ne_eq] at hchain
    obtain ⟨⟨⟨⟨⟨hhead, haddr⟩, hbase⟩, hnext⟩, hname⟩, hrest⟩ := hchain
    simp only [List.length_cons] at hlen
    obtain ⟨fuel', rfl⟩ : ∃ fuel', fuel = fuel' + 1 :=
      ⟨fuel - 1, by omega⟩
    subst hhead
    rw [walk_eq, if_neg haddr]
    simp only [hbase, hnext, hname]
    rw [ih n.next tail fuel' hrest (by omega)]
    simp only [List.map_cons, List.cons_append, expectedModule,
      List.length_cons, Nat.succ_sub_succ]

/-- The loop never emits more descriptors than it has fuel. -/
theorem walk_length_le (t : Target) (appName : String) :
    ∀ (fuel map : Nat), (walk t appName fuel map).length ≤ fuel := by
  intro fuel
  induction fuel with
  | zero =>
    intro map
    rw [walk_eq]
    by_cases hm : map = 0 <;> simp [hm]
  | succ fuel ih =>
    intro map
    rw [walk_eq]
    by_cases hm : map = 0
    · simp [hm]
    · simp only [hm, if_false]
      cases t.read (map + k_link_map_addr_offset) with
      | none => simp
      | some base =>
        cases t.read (map + k_link_map_next_offset) with
        | none => simp
        | some next =>
          cases t.read (map + k_link_map_name_offset) with
          | none => simp
          | some nameAddress =>
            simpa using ih next

/-- More fuel only extends the emitted list: the run with less fuel is a
prefix of the run with more. -/
theorem walk_prefix_of_le (t : Target) (appName : String) :
    ∀ (fuel₁ fuel₂ map : Nat), fuel₁ ≤ fuel₂ →
      walk t appName fuel₁ map <+: walk t appName fuel₂ map := by
  intro fuel₁
  induction fuel₁ with
  | zero =>
    intro fuel₂ map _
    rw [walk_eq]
    by_cases hm : map = 0 <;> simp [hm]
  | succ fuel₁ ih =>
    intro fuel₂ map hle
    obtain ⟨fuel₂', rfl⟩ : ∃ f, fuel₂ = f + 1 := ⟨fuel₂ - 1, by omega⟩
    rw [walk_eq, walk_eq t appName (fuel₂' + 1)]
    by_cases hm : map = 0
    · simp [hm]
    · simp only [hm, if_false]
      cases t.read (map + k_link_map_addr_offset) with
      | none => simp
      | some base =>
        cases t.read (map + k_link_map_next_offset) with
        | none => simp
        | some next =>
          cases t.read (map + k_link_map_name_offset) with
          | none => simp
          | some nameAddress =>
            obtain ⟨s, hs⟩ := ih fuel₂' next (by omega)
            exact ⟨s, by simp [hs]⟩

/-- Inside a set of addresses on which every read succeeds and which is
closed under next pointers, the loop spends all of its fuel: one descriptor
per unit of fuel. -/
theorem walk_length_of_closed (t : Target) (appName : String) (S : Nat → Prop)
    (hclosed : ∀ a, S a → a ≠ 0 ∧
      (∃ b, t.read (a + k_link_map_addr_offset) = some b) ∧
      (∃ nx, S nx ∧ t.read (a + k_link_map_next_offset) = some nx) ∧
      (∃ na, t.read (a + k_link_map_name_offset) = some na)) :
    ∀ (fuel map : Nat), S map → (walk t appName fuel map).length = fuel := by
  intro fuel
  induction fuel with
  | zero =>
    intro map hS
    obtain ⟨h0, _, _, _⟩ := hclosed map hS
    rw [walk_eq, if_neg h0]
    rfl
  | succ fuel ih =>
    intro map hS
    obtain ⟨h0, ⟨b, hb⟩, ⟨nx, hnxS, hnx⟩, ⟨na, hna⟩⟩ := hclosed map hS
    rw [walk_eq, if_neg h0]
    simp only [hb, hnx, hna, List.length_cons]
    rw [ih nx hnxS]

/-! Claim C1 -/

/-- A target presenting a fully readable, uncorrupted, acyclic chain of 1000
link-record nodes at addresses 100, 200, ..., 100000, every node with a
nonempty name string. -/
def tBig : Target :=
  { name := some "p"
    debug_addr := some 1
    read := fun a =>
      if a = 1 + k_r_debug_map_offset then some 100
      else
        let i := a / 100
        let off := a % 100
        if 1 ≤ i ∧ i ≤ 1000 then
          if off = k_link_map_addr_offset then some 77
          else if off = k_link_map_name_offset then some 3
          else if off = k_link_map_next_offset then
            some (if i = 1000 then 0 else 100 * (i + 1))
          else none
        else none
    readCString := fun a => if a = 3 then some "m" else none }

/-- The address of node number `m` (0-based) of the `tBig` chain; `bigAddr
1000` is the terminating null next pointer. -/
def bigAddr (m : Nat) : Nat :=
  if m = 1000 then 0 else 100 * (m + 1)

/-- Node number `j` (0-based) of the chain that `tBig` presents. -/
def bigNode (j : Nat) : LinkNode :=
  { addr := 100 * (j + 1)
    base := 77
    next := bigAddr (j + 1)
    nameAddr := 3 }

/-- The 1000 nodes of the chain that `tBig` presents. -/
def bigNodes : List LinkNode :=
  (List.range' 0 1000).map bigNode

theorem tBig_read_node (j off : Nat) (hj : j < 1000) (hoff : off < 100) :
    tBig.read (100 * (j + 1) + off) =
      if off = k_link_map_addr_offset then some 77
      else if off = k_link_map_name_offset then some 3
      else if off = k_link_map_next_offset then some (bigAddr (j + 1))
      else none := by
  have h1 : ¬(100 * (j + 1) + off = 1 + k_r_debug_map_offset) := by
    simp only [k_r_debug_map_offset]; omega
  have hdiv : (100 * (j + 1) + off) / 100 = j + 1 := by
    rw [Nat.mul_add_div (by norm_num), Nat.div_eq_of_lt hoff, Nat.add_zero]
  have hmod : (100 * (j + 1) + off) % 100 = off := by
    rw [Nat.mul_add_mod, Nat.mod_eq_of_lt hoff]
  simp only [tBig, h1, if_false, hdiv, hmod]
  have hrange : 1 ≤ j + 1 ∧ j + 1 ≤ 1000 := by omega
  rw [if_pos hrange]
  by_cases ha : off = k_link_map_addr_offset
  · simp [ha]
  · by_cases hb : off = k_link_map_name_offset
    · simp [ha, hb]
    · by_cases hc : off = k_link_map_next_offset
      · simp [ha, hb, hc, bigAddr]
      · simp [ha, hb, hc]

theorem bigChainSeg :
    ∀ (k j : Nat), j + k ≤ 1000 →
      chainSeg tBig (bigAddr j) ((List.range' j k).map bigNode)
        (bigAddr (j + k)) = true := by
  intro k
  induction k with
  | zero =>
    intro j _
    simp [chainSeg]
  | succ k ih =>
    intro j hk
    have hj : j < 1000 := by omega
    simp only [List.range', List.map_cons, chainSeg, Bool.and_eq_true,
      beq_iff_eq, bne_iff_ne, ne_eq, bigNode]
    refine ⟨⟨⟨⟨⟨?_, by omega⟩, ?_⟩, ?_⟩, ?_⟩, ?_⟩
    · simp [bigAddr, Nat.ne_of_lt hj]
    · rw [tBig_read_node j _ hj (by simp [k_link_map_addr_offset])]
      simp [k_link_map_addr_offset]
    · rw [tBig_read_node j _ hj (by simp [k_link_map_next_offset])]
      simp [k_link_map_next_offset, k_link_map_addr_offset,
        k_link_map_name_offset]
    · rw [tBig_read_node j _ hj (by simp [k_link_map_name_offset])]
      simp [k_link_map_name_offset, k_link_map_addr_offset]
    · have harith : j + 1 + k = j + (k + 1) := by omega
      have := ih (j + 1) (by omega)
      rw [harith] at this
      exact this

/-- C1 counterexample: `tBig` carries a valid (acyclic, fully readable,
uncorrupted) chain of length N = 1000, every prerequisite query succeeds, yet
discovery returns 999 descriptors, not 1000 — the claim fails for N ≥ kMaxDso
because the `++i >= kMaxDso` guard cuts the traversal short. -/
theorem modules_valid_chain_cex :
    chainSeg tBig 100 bigNodes 0 = true ∧
    bigNodes.length = 1000 ∧
    (∀ n ∈ bigNodes, tBig.readCString n.nameAddr = some "m") ∧
    tBig.name = some "p" ∧
    tBig.debug_addr = some 1 ∧
    tBig.read (1 + k_r_debug_map_offset) = some 100 ∧
    (initializeModules tBig).length = 999 := by
  have e3 : (List.range' 0 1000).map bigNode = bigNodes := rfl
  have hseg : chainSeg tBig 100 bigNodes 0 = true := by
    have h := bigChainSeg 1000 0 (by omega)
    have e1 : bigAddr 0 = 100 := rfl
    have e2 : bigAddr (0 + 1000) = 0 := rfl
    rw [e1, e2, e3] at h
    exact h
  have hlen1000 : bigNodes.length = 1000 := by
    rw [← e3, List.length_map, List.length_range']
  have hstr : ∀ n ∈ bigNodes, tBig.readCString n.nameAddr = some "m" := by
    intro n hn
    rw [← e3, List.mem_map] at hn
    obtain ⟨j, _, rfl⟩ := hn
    have hna : (bigNode j).nameAddr = 3 := rfl
    rw [hna]
    rfl
  have hcap : (initializeModules tBig).length = 999 := by
    have hlen999 : ((List.range' 0 999).map bigNode).length = 999 := by
      rw [List.length_map, List.length_range']
    have h1 : initializeModules tBig =
        walk tBig ("app:" ++ "p") (kMaxDso - 1) 100 := rfl
    have h2 := chainSeg_walk tBig ("app:" ++ "p")
      ((List.range' 0 999).map bigNode) (bigAddr 0) (bigAddr 999)
      (kMaxDso - 1) (bigChainSeg 999 0 (by omega))
      (by rw [hlen999]; decide)
    have h3 : bigAddr 0 = 100 := rfl
    have h4 : walk tBig ("app:" ++ "p")
        (kMaxDso - 1 - ((List.range' 0 999).map bigNode).length)
        (bigAddr 999) = [] := by
      rw [hlen999, walk_eq]
      split
      · rfl
      · rfl
    rw [h3] at h2
    rw [h1, h2, h4, List.append_nil, List.length_map, List.length_map,
      List.length_range']
  exact ⟨hseg, hlen1000, hstr, rfl, rfl, rfl, hcap⟩

/-- C1 (amended: the chain must have length at most kMaxDso - 1 = 999; longer
valid chains are cut short, see `modules_valid_chain_cex`): for every valid
(acyclic, fully readable, uncorrupted) chain of length N ≤ 999,
module discovery returns exactly N descriptors, in chain order, each name
being the node path string when nonempty and the fallback
`"app:" ++ procName` otherwise. -/
theorem modules_valid_chain (t : Target) (procName : String)
    (debugAddr headAddr : Nat) (nodes : List LinkNode) (str : LinkNode → String)
    (hname : t.name = some procName)
    (hdebug : t.debug_addr = some debugAddr)
    (hdz : debugAddr ≠ 0)
    (hhead : t.read (debugAddr + k_r_debug_map_offset) = some headAddr)
    (hchain : chainSeg t headAddr nodes 0 = true)
    (hlen : nodes.length ≤ kMaxDso - 1)
    (hstr : ∀ n ∈ nodes, t.readCString n.nameAddr = some (str n)) :
    initializeModules t =
      nodes.map fun n =>
        { name := if str n = "" then "app:" ++ procName else str n,
          base := n.base } := by
  simp only [initializeModules, hname, hdebug, if_neg hdz, hhead]
  rw [chainSeg_walk t _ nodes headAddr 0 _ hchain hlen, walk_map_zero,
    List.append_nil]
  refine List.map_congr_left fun n hn => ?_
  have hs := hstr n hn
  simp only [expectedModule, resolveName, hs, Option.getD_some]
  by_cases hz : str n = ""
  · simp [hz, String.isEmpty_iff]
  · simp [hz, String.isEmpty_iff]

/-- The target of the C1 witness: the two-node example chain of the spec,
first node named "/lib/libc.so", second node with an empty name string. -/
def tC1 : Target :=
  { name := some "p"
    debug_addr := some 50
    read := fun a =>
      if a = 58 then some 10
      else if a = 10 then some 7
      else if a = 34 then some 20
      else if a = 18 then some 3
      else if a = 20 then some 9
      else if a = 44 then some 0
      else if a = 28 then some 4
      else none
    readCString := fun a =>
      if a = 3 then some "/lib/libc.so"
      else if a = 4 then some ""
      else none }

/-- C1 witness: on the two-node chain of `tC1` discovery returns the two
expected descriptors in chain order: the first node by its own path, the
second (empty path string) by the fallback name. -/
theorem modules_valid_chain_witness :
    initializeModules tC1 =
      [{ name := "/lib/libc.so", base := 7 },
       { name := "app:" ++ "p", base := 9 }] :=
  (modules_valid_chain tC1 "p" 50 10
    [{ addr := 10, base := 7, next := 20, nameAddr := 3 },
     { addr := 20, base := 9, next := 0, nameAddr := 4 }]
    (fun n => if n.nameAddr = 3 then "/lib/libc.so" else "")
    rfl rfl (by decide) rfl (by decide) (by decide) (by decide)).trans
    (by decide)

/-! Claim C2 -/

/-- C2: if, while processing node k (here k = good.length + 1, with node k
actually reached: k ≤ kMaxDso - 1), the read of the base-address,
next-pointer, or name-pointer field fails, discovery returns exactly the
k - 1 descriptors of the fully processed earlier nodes. -/
theorem modules_prefix_stable (t : Target) (procName : String)
    (debugAddr headAddr badAddr : Nat) (good : List LinkNode)
    (hname : t.name = some procName)
    (hdebug : t.debug_addr = some debugAddr)
    (hdz : debugAddr ≠ 0)
    (hhead : t.read (debugAddr + k_r_debug_map_offset) = some headAddr)
    (hchain : chainSeg t headAddr good badAddr = true)
    (hlen : good.length + 1 ≤ kMaxDso - 1)
    (hbz : badAddr ≠ 0)
    (hfail :
      t.read (badAddr + k_link_map_addr_offset) = none ∨
      (∃ b, t.read (badAddr + k_link_map_addr_offset) = some b ∧
        t.read (badAddr + k_link_map_next_offset) = none) ∨
      (∃ b nx, t.read (badAddr + k_link_map_addr_offset) = some b ∧
        t.read (badAddr + k_link_map_next_offset) = some nx ∧
        t.read (badAddr + k_link_map_name_offset) = none)) :
    initializeModules t = good.map (expectedModule t ("app:" ++ procName)) := by
  simp only [initializeModules, hname, hdebug, if_neg hdz, hhead]
  rw [chainSeg_walk t _ good headAddr badAddr _ hchain (by omega)]
  obtain ⟨f, hf⟩ : ∃ f, kMaxDso - 1 - good.length = f + 1 :=
    ⟨kMaxDso - 2 - good.length, by simp only [kMaxDso] at *; omega⟩
  rw [hf, walk_eq, if_neg hbz]
  rcases hfail with h1 | ⟨b, hb, h2⟩ | ⟨b, nx, hb, hnx, h3⟩
  · simp [h1]
  · simp [hb, h2]
  · simp [hb, hnx, h3]

/-- The target of the C2 witness: one fully readable node at address 10, whose
next pointer leads to address 20, where the base-address read fails. -/
def tC2 : Target :=
  { name := some "p"
    debug_addr := some 50
    read := fun a =>
      if a = 58 then some 10
      else if a = 10 then some 7
      else if a = 34 then some 20
      else if a = 18 then some 3
      else none
    readCString := fun a => if a = 3 then some "liba" else none }

/-- C2 witness: on `tC2` the corrupt second node drops itself and the rest of
the chain, but the one fully processed module is kept. -/
theorem modules_prefix_stable_witness :
    initializeModules tC2 = [{ name := "liba", base := 7 }] :=
  (modules_prefix_stable tC2 "p" 50 10 20
    [{ addr := 10, base := 7, next := 20, nameAddr := 3 }]
    rfl rfl (by decide) rfl (by decide) (by decide) (by decide)
    (Or.inl (by decide))).trans (by decide)

/-! Claim C3 -/

/-- C3: if the process display-name query fails, the debug-info anchor query
fails or yields zero, or the head-pointer read at the anchor fails, then
discovery produces the empty sequence, and `Modules` on a valid reader bound
to such a target still returns (it does not fail or throw): it yields the
empty list and the post-state. -/
theorem modules_discovery_abort_empty (t : Target) (r : ProcessReader)
    (hfail :
      t.name = none ∨
      t.debug_addr = none ∨
      t.debug_addr = some 0 ∨
      (∃ da, t.debug_addr = some da ∧
        t.read (da + k_r_debug_map_offset) = none))
    (hv : r.initialized = InitState.valid)
    (ht : r.target = t)
    (hf : r.initialized_modules = false) :
    initializeModules t = [] ∧
    r.Modules = some ([], r.InitializeModules) := by
  have hempty : initializeModules t = [] := by
    rcases hfail with h | h | h | ⟨da, hda, hrd⟩
    · simp [initializeModules, h]
    · cases hn : t.name with
      | none => simp [initializeModules, hn]
      | some s => simp [initializeModules, hn, h]
    · cases hn : t.name with
      | none => simp [initializeModules, hn]
      | some s => simp [initializeModules, hn, h]
    · cases hn : t.name with
      | none => simp [initializeModules, hn]
      | some s =>
        by_cases hz : da = 0
        · simp [initializeModules, hn, hda, hz]
        · simp [initializeModules, hn, hda, hz, hrd]
  refine ⟨hempty, ?_⟩
  simp only [ProcessReader.Modules, hv, if_true, hf, Bool.false_eq_true,
    if_false, ProcessReader.InitializeModules, ht, hempty]

/-- The target of the C3 witness: the display-name property query fails. -/
def tC3 : Target :=
  { name := none
    debug_addr := some 50
    read := fun _ => some 10
    readCString := fun _ => some "liba" }

/-- The reader of the C3 witness: valid, first query still pending. -/
def rC3 : ProcessReader :=
  { initialized := InitState.valid
    target := tC3
    initialized_modules := false
    modules := [] }

/-- C3 witness: with the name query failing, discovery yields zero modules and
the `Modules` call itself still returns a value. -/
theorem modules_discovery_abort_empty_witness :
    initializeModules tC3 = [] ∧
    rC3.Modules = some ([], rC3.InitializeModules) :=
  modules_discovery_abort_empty tC3 rC3 (Or.inl rfl) rfl rfl rfl

/-! Claim C4 -/

/-- C4: a node whose base-address, next-pointer and name-pointer reads all
succeed always contributes a descriptor — named by its path string when the
string dereference succeeds and the string is nonempty, and by the fallback
`"app:" ++ procName` otherwise (dereference failure or empty string) — and
traversal continues to the next node either way. -/
theorem modules_node_included (t : Target) (procName : String)
    (debugAddr headAddr : Nat) (good : List LinkNode) (n : LinkNode)
    (hname : t.name = some procName)
    (hdebug : t.debug_addr = some debugAddr)
    (hdz : debugAddr ≠ 0)
    (hhead : t.read (debugAddr + k_r_debug_map_offset) = some headAddr)
    (hchain : chainSeg t headAddr good n.addr = true)
    (hlen : good.length + 1 ≤ kMaxDso - 1)
    (haz : n.addr ≠ 0)
    (hbase : t.read (n.addr + k_link_map_addr_offset) = some n.base)
    (hnext : t.read (n.addr + k_link_map_next_offset) = some n.next)
    (hnm : t.read (n.addr + k_link_map_name_offset) = some n.nameAddr) :
    initializeModules t =
      good.map (expectedModule t ("app:" ++ procName)) ++
        { name :=
            match t.readCString n.nameAddr with
            | some s => if s = "" then "app:" ++ procName else s
            | none => "app:" ++ procName,
          base := n.base } ::
          walk t ("app:" ++ procName) (kMaxDso - 1 - (good.length + 1))
            n.next := by
  simp only [initializeModules, hname, hdebug, if_neg hdz, hhead]
  rw [chainSeg_walk t _ good headAddr n.addr _ hchain (by omega)]
  obtain ⟨f, hf⟩ : ∃ f, kMaxDso - 1 - good.length = f + 1 :=
    ⟨kMaxDso - 2 - good.length, by simp only [kMaxDso] at *; omega⟩
  have hf2 : f = kMaxDso - 1 - (good.length + 1) := by
    simp only [kMaxDso] at *; omega
  rw [hf, walk_eq, if_neg haz]
  simp only [hbase, hnext, hnm]
  have hres : resolveName t ("app:" ++ procName) n.nameAddr =
      match t.readCString n.nameAddr with
      | some s => if s = "" then "app:" ++ procName else s
      | none => "app:" ++ procName := by
    unfold resolveName
    cases t.readCString n.nameAddr with
    | none => simp [String.isEmpty_iff]
    | some s =>
      simp only [Option.getD_some]
      by_cases hs : s = ""
      · simp [hs, String.isEmpty_iff]
      · simp [hs, String.isEmpty_iff]
  rw [hres, hf2]

/-- The target of the C4 witness: a single node whose three pointer-sized
reads succeed but whose name-string dereference fails. -/
def tC4 : Target :=
  { name := some "p"
    debug_addr := some 50
    read := fun a =>
      if a = 58 then some 10
      else if a = 10 then some 7
      else if a = 34 then some 0
      else if a = 18 then some 3
      else none
    readCString := fun _ => none }

/-- C4 witness: the node of `tC4` is kept despite the failed string
dereference, named by the fallback. -/
theorem modules_node_included_witness :
    initializeModules tC4 = [{ name := "app:" ++ "p", base := 7 }] :=
  (modules_node_included tC4 "p" 50 10 []
    { addr := 10, base := 7, next := 0, nameAddr := 3 }
    rfl rfl (by decide) rfl (by decide) (by decide) (by decide)
    (by decide) (by decide) (by decide)).trans (by decide)

/-! Claim C5 -/

/-- C5: on a chain that cycles (modelled by a set S of node addresses, closed
under next pointers, on which every read succeeds and no address is zero, so
traversal never reaches the null terminator), discovery terminates at the
iteration ceiling with a non-empty result of exactly kMaxDso - 1 descriptors,
and that result is a prefix of the (arbitrarily longer) ideal traversal
sequence. -/
theorem modules_cyclic_chain_bounded (t : Target) (S : Nat → Prop)
    (procName : String) (debugAddr headAddr nfuel : Nat)
    (hname : t.name = some procName)
    (hdebug : t.debug_addr = some debugAddr)
    (hdz : debugAddr ≠ 0)
    (hhead : t.read (debugAddr + k_r_debug_map_offset) = some headAddr)
    (hS : S headAddr)
    (hclosed : ∀ a, S a → a ≠ 0 ∧
      (∃ b, t.read (a + k_link_map_addr_offset) = some b) ∧
      (∃ nx, S nx ∧ t.read (a + k_link_map_next_offset) = some nx) ∧
      (∃ na, t.read (a + k_link_map_name_offset) = some na))
    (hn : kMaxDso - 1 ≤ nfuel) :
    initializeModules t ≠ [] ∧
    (initializeModules t).length = kMaxDso - 1 ∧
    initializeModules t <+: walk t ("app:" ++ procName) nfuel headAddr := by
  have hunf : initializeModules t =
      walk t ("app:" ++ procName) (kMaxDso - 1) headAddr := by
    simp only [initializeModules, hname, hdebug, if_neg hdz, hhead]
  have hlen : (walk t ("app:" ++ procName) (kMaxDso - 1) headAddr).length =
      kMaxDso - 1 :=
    walk_length_of_closed t _ S hclosed _ _ hS
  refine ⟨?_, by rw [hunf, hlen], ?_⟩
  · rw [hunf]
    intro hnil
    rw [hnil] at hlen
    simp only [List.length_nil, kMaxDso] at hlen
    omega
  · rw [hunf]
    exact walk_prefix_of_le t _ _ _ _ hn

/-- The target of the C5 witness: a single node at address 1 whose next
pointer points back to itself — the shortest possible cycle. -/
def tC5 : Target :=
  { name := some "p"
    debug_addr := some 50
    read := fun a =>
      if a = 58 then some 1
      else if a = 1 then some 7
      else if a = 25 then some 1
      else if a = 9 then some 3
      else none
    readCString := fun a => if a = 3 then some "x" else none }

/-- C5 witness: on the self-cycling chain of `tC5` discovery stops at the
ceiling with 999 descriptors, a prefix of the length-999 ideal traversal. -/
theorem modules_cyclic_chain_bounded_witness :
    initializeModules tC5 ≠ [] ∧
    (initializeModules tC5).length = kMaxDso - 1 ∧
    initializeModules tC5 <+: walk tC5 ("app:" ++ "p") 999 1 :=
  modules_cyclic_chain_bounded tC5 (fun a => a = 1) "p" 50 1 999
    rfl rfl (by decide) rfl rfl
    (fun a ha => by
      subst ha
      exact ⟨by decide, ⟨7, by decide⟩, ⟨1, rfl, by decide⟩, ⟨3, by decide⟩⟩)
    (by decide)

/-! Claim C6 -/

/-- C6: discovery runs at most once per reader.  Whatever a successful
`Modules` call returned, every later call on the resulting reader returns the
identical cached sequence — even after the target (the remote memory the
reader would re-read) is replaced by an arbitrary different one. -/
theorem modules_cached (r : ProcessReader) (ms : List Module)
    (r' : ProcessReader) (t' : Target)
    (h : r.Modules = some (ms, r')) :
    ({ r' with target := t' } : ProcessReader).Modules =
      some (ms, { r' with target := t' }) := by
  unfold ProcessReader.Modules at h ⊢
  by_cases hv : r.initialized = InitState.valid
  · rw [if_pos hv] at h
    by_cases hf : r.initialized_modules = true
    · rw [if_pos hf] at h
      obtain ⟨hm, hr⟩ : r.modules = ms ∧ r = r' := by simpa using h
      subst hm
      subst hr
      simp [hv, hf]
    · rw [if_neg hf] at h
      obtain ⟨hm, hr⟩ :
          (r.InitializeModules).modules = ms ∧ r.InitializeModules = r' := by
        simpa using h
      subst hr
      simp only [ProcessReader.InitializeModules] at hm ⊢
      simp [hv, ← hm]
  · rw [if_neg hv] at h
    exact absurd h (by simp)

/-- The target of the C6 witness: discovery on it yields the empty list. -/
def tC6 : Target :=
  { name := none
    debug_addr := some 50
    read := fun _ => some 10
    readCString := fun _ => some "liba" }

/-- A second target for the C6 witness, on which discovery would find one
module — the cached first answer must win anyway. -/
def tC6b : Target :=
  { name := some "q"
    debug_addr := some 50
    read := fun a =>
      if a = 58 then some 10
      else if a = 10 then some 7
      else if a = 34 then some 0
      else if a = 18 then some 3
      else none
    readCString := fun a => if a = 3 then some "libz" else none }

/-- The reader of the C6 witness before its first `Modules` call. -/
def rC6 : ProcessReader :=
  { initialized := InitState.valid
    target := tC6
    initialized_modules := false
    modules := [] }

/-- C6 witness: after the first call on `rC6`, a second call with the target
memory swapped to `tC6b` still returns the cached (empty) sequence. -/
theorem modules_cached_witness :
    ({ rC6.InitializeModules with target := tC6b } : ProcessReader).Modules =
      some ([], { rC6.InitializeModules with target := tC6b }) :=
  modules_cached rC6 [] rC6.InitializeModules tC6b rfl

/-! Claim C7 -/

/-- C7: `Modules` trips its fatal assertion (modelled by `none`) exactly when
the reader is not in the `valid` state; in the `valid` state it always
returns a value rather than failing. -/
theorem modules_requires_valid_state (r : ProcessReader) :
    r.Modules = none ↔ r.initialized ≠ InitState.valid := by
  unfold ProcessReader.Modules
  by_cases hv : r.initialized = InitState.valid
  · by_cases hf : r.initialized_modules = true <;> simp [hv, hf]
  · simp [hv]

/-! Claim C8 -/

/-- C8: for every reader and every target handle, `Initialize` binds the
handle (with its memory accessor), ends in the `valid` state and returns
true, unconditionally. -/
theorem initialize_always_succeeds (r : ProcessReader) (t : Target) :
    (r.Initialize t).2 = true ∧
    (r.Initialize t).1.initialized = InitState.valid ∧
    (r.Initialize t).1.target = t :=
  ⟨rfl, rfl, rfl⟩

/-! Claim C9 -/

/-- C9: the cache flag is set by discovery itself, not by its success: after a
first `Modules` call whose discovery aborts with zero modules, the flag is
true, the call returned the empty list, and every later call — even with the
target memory replaced — returns the same cached empty list without
re-running discovery. -/
theorem modules_failure_cached (r : ProcessReader) (t' : Target)
    (hv : r.initialized = InitState.valid)
    (hf : r.initialized_modules = false)
    (he : initializeModules r.target = []) :
    (r.InitializeModules).initialized_modules = true ∧
    r.Modules = some ([], r.InitializeModules) ∧
    ({ r.InitializeModules with target := t' } : ProcessReader).Modules =
      some ([], { r.InitializeModules with target := t' }) := by
  refine ⟨rfl, ?_, ?_⟩
  · simp only [ProcessReader.Modules, hv, if_true, hf, Bool.false_eq_true,
      if_false, ProcessReader.InitializeModules, he]
  · simp only [ProcessReader.Modules, ProcessReader.InitializeModules, hv,
      if_true, he]

/-- The target of the C9 witness: the debug-info anchor property yields 0, so
discovery aborts with zero modules. -/
def tC9 : Target :=
  { name := some "p"
    debug_addr := some 0
    read := fun _ => some 10
    readCString := fun _ => some "liba" }

/-- A second target for the C9 witness, presenting one readable module. -/
def tC9b : Target :=
  { name := some "p"
    debug_addr := some 50
    read := fun a =>
      if a = 58 then some 10
      else if a = 10 then some 7
      else if a = 34 then some 0
      else if a = 18 then some 3
      else none
    readCString := fun a => if a = 3 then some "libz" else none }

/-- The reader of the C9 witness before its first `Modules` call. -/
def rC9 : ProcessReader :=
  { initialized := InitState.valid
    target := tC9
    initialized_modules := false
    modules := [] }

/-- C9 witness: the aborted (empty) discovery on `rC9` is cached exactly like
a success: the flag is set and a retry against richer memory still returns
the empty list. -/
theorem modules_failure_cached_witness :
    (rC9.InitializeModules).initialized_modules = true ∧
    rC9.Modules = some ([], rC9.InitializeModules) ∧
    ({ rC9.InitializeModules with target := tC9b } : ProcessReader).Modules =
      some ([], { rC9.InitializeModules with target := tC9b }) :=
  modules_failure_cached rC9 tC9b rfl rfl rfl

/-! Claim C10 -/

/-- C10: discovery never returns more than kMaxDso - 1 = 999 descriptors, for
any target whatsoever: the counter is pre-incremented and checked against
kMaxDso before a node is processed, so the node reached on the 1000th
iteration is never processed. -/
theorem modules_length_bound (t : Target) :
    (initializeModules t).length ≤ kMaxDso - 1 := by
  cases hn : t.name with
  | none => simp [initializeModules, hn]
  | some s =>
    cases hd : t.debug_addr with
    | none => simp [initializeModules, hn, hd]
    | some da =>
      by_cases hz : da = 0
      · simp [initializeModules, hn, hd, hz]
      · cases hr : t.read (da + k_r_debug_map_offset) with
        | none => simp [initializeModules, hn, hd, hz, hr]
        | some map =>
          simp only [initializeModules, hn, hd, if_neg hz, hr]
          exact walk_length_le t _ _ map

end Crashpad
